import Mathlib

/-!
# Verification of the AluminumPriceApp pricing engine and PDF layout engine

Shallow embedding of the quoting tool's core logic, translated from
`src/App.tsx` and `src/pdfExporter.ts`.

Modelling conventions:
* JavaScript numbers are modelled as exact rationals (`ℚ`).  All arithmetic
  the claims are about (area, add-on sums, per-item price, subtotal, tax)
  is plain field arithmetic in the source, so `ℚ` captures it exactly;
  IEEE-754 overflow to `Infinity` (only reachable through absurdly long
  digit strings) is the one behaviour not represented, and `NaN` is
  represented by parse failure (`Option.none`).
* `parseFloat` is modelled on the alphabet it is actually applied to in the
  source: the cleaned strings produced by `parseLooseNumber`, which contain
  only ASCII digits, `.`, `-` and `,`.  On that alphabet JavaScript's
  `parseFloat` reads an optional leading minus sign, a run of digits, and
  optionally a dot followed by a second run of digits, returning `NaN`
  when no digit was consumed.
* `String.prototype.trim` is modelled as dropping whitespace characters
  from both ends (`jsTrim`).
* Environment-supplied primitives (the `jspdf` canvas's `splitTextToSize`,
  the `Intl` number formatters, `uuid()`, `Date.now()`, `JSON.parse`) are
  taken as parameters of the functions that use them.
-/

namespace AluminumApp

/-! ## JavaScript string/number primitives -/

def isAsciiDigit (c : Char) : Bool := '0' ≤ c && c ≤ '9'

/-- Longest digit run at the head of a character list, plus the rest. -/
def takeDigits : List Char → List Char × List Char
  | [] => ([], [])
  | c :: cs =>
    if isAsciiDigit c then
      let p := takeDigits cs
      (c :: p.1, p.2)
    else ([], c :: cs)

def digitsVal (ds : List Char) : ℕ :=
  ds.foldl (fun a c => 10 * a + (c.toNat - 48)) 0

/-- Discrete outcome of a successful `parseFloat`: sign, integer digits value,
fraction digits value, number of fraction digits. -/
structure FloatParts where
  neg : Bool
  intPart : ℕ
  fracVal : ℕ
  fracLen : ℕ
deriving DecidableEq

/-- `parseFloat` on a cleaned numeric string (alphabet: digits, `.`, `-`, `,`):
optional leading `-`, longest digit run, optionally `.` and a second digit
run; `none` models `NaN` (no digit consumed). -/
def parseFloatParts (s : String) : Option FloatParts :=
  let signed : Bool × List Char :=
    match s.toList with
    | '-' :: rest => (true, rest)
    | l => (false, l)
  let ip := takeDigits signed.2
  let fp : List Char :=
    match ip.2 with
    | '.' :: r2 => (takeDigits r2).1
    | _ => []
  if ip.1.isEmpty && fp.isEmpty then none
  else some ⟨signed.1, digitsVal ip.1, digitsVal fp, fp.length⟩

/-- Rational value denoted by the parsed parts. -/
def partsVal (p : FloatParts) : ℚ :=
  (cond p.neg (-1) 1) * ((p.intPart : ℚ) + (p.fracVal : ℚ) / 10 ^ p.fracLen)

def parseFloatClean (s : String) : Option ℚ :=
  (parseFloatParts s).map partsVal

/-- The character class kept by the cleaning regexes `/[^\d.,-]/g` (App.tsx)
and `/[^0-9,\.\-]/g` (pdfExporter.ts): digits, period, comma, minus. -/
def keepNumericChar (c : Char) : Bool :=
  isAsciiDigit c || c = '.' || c = ',' || c = '-'

/-- JavaScript `s.replace(",", ".")`: only the first comma is replaced. -/
def replaceFirstComma : List Char → List Char
  | [] => []
  | c :: r => if c = ',' then '.' :: r else c :: replaceFirstComma r

/-- `s.replace(/[^\d.,-]/g, "").replace(",", ".")`. -/
def cleanNumeric (s : String) : String :=
  String.mk (replaceFirstComma (s.toList.filter keepNumericChar))

/-- JavaScript `String.prototype.trim`, modelled over `Char.isWhitespace`. -/
def jsTrim (s : String) : String :=
  String.mk (((s.toList.dropWhile Char.isWhitespace).reverse.dropWhile
    Char.isWhitespace).reverse)

/-- JavaScript `Math.round`: round half toward positive infinity. -/
def jsRound (q : ℚ) : Int := Int.floor (q + 1 / 2)

/-! ## Pricing engine — `src/App.tsx` -/

namespace App

/-- `parseLooseNumber` from App.tsx lines 88–93:
empty/whitespace-only text short-circuits to `0`, otherwise the text is
cleaned, comma-replaced, `parseFloat`-ed, and a non-finite result (`NaN`,
modelled as parse failure) degrades to `0`. -/
def parseLooseNumber (s : String) : ℚ :=
  if s.toList.all Char.isWhitespace then 0
  else (parseFloatClean (cleanNumeric s)).getD 0

/-- `normalizeTaxPercent` from App.tsx lines 96–100.  Note the source here
returns `0` only for an input of exactly `0`; negative inputs fall through
to the final `return n`. -/
def normalizeTaxPercent (n : ℚ) : ℚ :=
  if n = 0 then 0
  else if 1 < n then n / 100
  else n

structure Addon where
  id : String
  name : String
  price : String
  checked : Bool
deriving DecidableEq

structure LineItem where
  id : String
  widthCm : String
  heightCm : String
  qty : String
  profileId : Option String
  profileName : Option String
  unitPrice : String
  location : String
  details : String
  addons : List Addon
  subtotal : ℚ
deriving DecidableEq

/-- The `Partial<LineItem>` draft handed to `addItem`; `none` models an
absent (`undefined`) field. -/
structure Draft where
  widthCm : Option String
  heightCm : Option String
  qty : Option String
  profileId : Option String
  profileName : Option String
  unitPrice : Option String
  location : Option String
  details : Option String
  addons : Option (List Addon)

/-- Sum of the checked add-ons' parsed prices, as in `addItem` and the
live-preview `liveAddonsSumPerItem`. -/
def addonsSum (addons : List Addon) : ℚ :=
  addons.foldl (fun sum a => sum + (if a.checked then parseLooseNumber a.price else 0)) 0

/-- `addItem` from App.tsx lines 280–317, as the pure construction of the
committed `LineItem`.  `uuid()` is passed in as `freshId`; the `setState`
append and the editor reset are the caller's state plumbing. -/
def addItem (freshId : String) (d : Draft) : LineItem :=
  let widthCm := d.widthCm.getD ""
  let heightCm := d.heightCm.getD ""
  let qtyText := d.qty.getD ""
  let unitPriceText := d.unitPrice.getD "0"
  let w := parseLooseNumber widthCm
  let h := parseLooseNumber heightCm
  let qty := max 0 (parseLooseNumber qtyText)
  let area := w * h / 10000
  let addonsPerItem := addonsSum (d.addons.getD [])
  let unitPriceNum := parseLooseNumber unitPriceText
  let perItemPrice := area * unitPriceNum + addonsPerItem
  let subtotal := perItemPrice * qty
  { id := freshId
    widthCm := widthCm
    heightCm := heightCm
    qty := qtyText
    profileId := d.profileId
    profileName := d.profileName
    unitPrice := unitPriceText
    location := d.location.getD ""
    details := d.details.getD ""
    addons := d.addons.getD []
    subtotal := subtotal }

/-- `taxDecimal` from App.tsx line 234. -/
def taxDecimal (taxPercentText : String) : ℚ :=
  normalizeTaxPercent (parseLooseNumber taxPercentText)

/-- `subTotal` from App.tsx lines 237–240: the reduce over the items'
frozen `subtotal` fields. -/
def subTotal (items : List LineItem) : ℚ :=
  items.foldl (fun a it => a + it.subtotal) 0

/-- `taxValue` from App.tsx line 241. -/
def taxValue (items : List LineItem) (taxPercentText : String) : ℚ :=
  subTotal items * taxDecimal taxPercentText

/-- `grandTotal` from App.tsx line 242. -/
def grandTotal (items : List LineItem) (taxPercentText : String) : ℚ :=
  subTotal items + taxValue items taxPercentText

structure Totals where
  sub : ℚ
  tax : ℚ
  grand : ℚ
deriving DecidableEq

/-- The `totals` snapshot written by `saveQuote` (App.tsx line 409),
bundling the three derived values. -/
def computeQuoteTotals (items : List LineItem) (taxPercentText : String) : Totals :=
  ⟨subTotal items, taxValue items taxPercentText, grandTotal items taxPercentText⟩

/-! ## Customers and quotes — `src/App.tsx` -/

/-- `Customer` from App.tsx lines 7–14.  `phone`, `email` and `notes` are
optional in the TypeScript type but every call site (`saveQuote`) passes
strings, with `""` playing the role of an absent value. -/
structure Customer where
  id : String
  name : String
  phone : String
  email : String
  notes : String
  createdAt : Int
deriving DecidableEq

/-- `ensureCustomerByName` from App.tsx lines 353–388, as a pure function
from the current `customers` list to the resolved customer and the updated
list.  `uuid()` and `Date.now()` are passed in as `freshId` and `now`.
The source skips the `setState` when the merged record is JSON-identical
to the existing one; the resulting list is the same either way, so the
model applies the map unconditionally. -/
def ensureCustomerByName (freshId : String) (now : Int) (customers : List Customer)
    (name phone email notes : String) : Customer × List Customer :=
  let trimmed := jsTrim name
  match customers.find? (fun c => c.name = trimmed) with
  | some existing =>
    let updated : Customer :=
      { existing with
        phone := if phone ≠ "" then phone else existing.phone
        email := if email ≠ "" then email else existing.email
        notes := notes }
    (updated, customers.map (fun c => if c.id = updated.id then updated else c))
  | none =>
    let created : Customer :=
      ⟨freshId, trimmed, phone, email, notes, now⟩
    (created, customers ++ [created])

structure Quote where
  id : String
  customerId : String
  title : String
  date : Int
  items : List LineItem
  taxPercent : ℚ
  totals : Totals
deriving DecidableEq

/-- The quotes-list update performed by `saveQuote` (App.tsx lines 412–416):
drop every quote of the resolved customer, then append the new quote
("Keep only one quote per customer (overwrite old)"). -/
def saveQuoteUpdate (quotes : List Quote) (q : Quote) : List Quote :=
  quotes.filter (fun old => old.customerId ≠ q.customerId) ++ [q]

/-- Number of stored quotes belonging to a given customer id. -/
def quotesFor (quotes : List Quote) (cid : String) : ℕ :=
  (quotes.filter (fun q => q.customerId = cid)).length

/-! ## Persisted-state hydration — `src/App.tsx` lines 141–182 -/

/-- JSON values as produced by `JSON.parse`. -/
inductive JsValue where
  | nullV : JsValue
  | boolV : Bool → JsValue
  | numV : ℚ → JsValue
  | strV : String → JsValue
  | arrV : List JsValue → JsValue
  | objV : List (String × JsValue) → JsValue

/-- Property access `v.k`: `none` models `undefined` (absent key or non-object
receiver — array/string/number/boolean receivers have none of the accessed
keys in this code). -/
def getField : JsValue → String → Option JsValue
  | .objV fs, k => (fs.find? (fun p => p.1 = k)).map (fun p => p.2)
  | _, _ => none

mutual

/-- JavaScript `String(x)` coercion; `numStr` stands in for the host's
number-to-string conversion. -/
def jsToString (numStr : ℚ → String) : JsValue → String
  | .nullV => "null"
  | .boolV b => cond b "true" "false"
  | .numV q => numStr q
  | .strV s => s
  | .arrV xs => String.intercalate "," (jsToStringList numStr xs)
  | .objV _ => "[object Object]"

def jsToStringList (numStr : ℚ → String) : List JsValue → List String
  | [] => []
  | v :: vs => jsToString numStr v :: jsToStringList numStr vs

end

/-- JavaScript truthiness, for `Boolean(x)`. -/
def jsTruthy : JsValue → Bool
  | .nullV => false
  | .boolV b => b
  | .numV q => q != 0
  | .strV s => s ≠ ""
  | .arrV _ => true
  | .objV _ => true

/-- `String(field ?? default)`: `undefined`/`null` fall back to the default,
anything else is string-coerced. -/
def coerceStr (numStr : ℚ → String) (v : Option JsValue) (dflt : String) : String :=
  match v with
  | none => dflt
  | some .nullV => dflt
  | some x => jsToString numStr x

/-- `LS_KEY` from App.tsx line 76. -/
def LS_KEY : String := "aluminum-quote-app:new-mobile-style-v1"

/-- The hydrated `current` draft.  Fields that the source leaves as
unvalidated raw JSON (the `items` array elements) stay `JsValue`s. -/
structure CurrentH where
  customerName : String
  customerPhone : String
  customerEmail : String
  customerNotes : String
  title : String
  items : List JsValue
  taxPercentText : String
  notes : String

inductive TabH where
  | quoteTab : TabH
  | customersTab : TabH
deriving DecidableEq

structure UiH where
  tab : TabH
  settingsOpen : Bool

/-- The hydrated application state.  The source casts the `customers`,
`quotes` and `profiles` arrays without validating their elements, so those
stay raw `JsValue` lists here. -/
structure AppStateH where
  customers : List JsValue
  quotes : List JsValue
  profiles : List JsValue
  current : CurrentH
  ui : UiH

/-- `defaultProfiles` (App.tsx lines 109–114) as raw JSON values.  The ids
are `uuid()`-generated at module load; they are modelled as fixed opaque
tokens since nothing in the hydration logic inspects them. -/
def defaultProfilesJs : List JsValue :=
  [ .objV [("id", .strV "uuid-4300"), ("name", .strV "4300"), ("unitPrice", .numV 520)]
  , .objV [("id", .strV "uuid-5600"), ("name", .strV "5600"), ("unitPrice", .numV 590)]
  , .objV [("id", .strV "uuid-7300"), ("name", .strV "7300"), ("unitPrice", .numV 690)]
  , .objV [("id", .strV "uuid-7600"), ("name", .strV "7600"), ("unitPrice", .numV 740)] ]

/-- `DEFAULT_STATE` from App.tsx lines 123–138. -/
def DEFAULT_STATE : AppStateH :=
  { customers := []
    quotes := []
    profiles := defaultProfilesJs
    current :=
      { customerName := ""
        customerPhone := ""
        customerEmail := ""
        customerNotes := ""
        title := "הצעת מחיר"
        items := []
        taxPercentText := "17"
        notes := "" }
    ui := { tab := .quoteTab, settingsOpen := false } }

/-- The field-by-field coercion applied by `hydrateState` to a successfully
parsed blob (App.tsx lines 147–175). -/
def coerceState (numStr : ℚ → String) (parsed : JsValue) : AppStateH :=
  let customers := match getField parsed "customers" with
    | some (.arrV xs) => xs
    | _ => []
  let quotes := match getField parsed "quotes" with
    | some (.arrV xs) => xs
    | _ => []
  let profiles := match getField parsed "profiles" with
    | some (.arrV xs) => if xs.isEmpty then defaultProfilesJs else xs
    | _ => defaultProfilesJs
  let cur := getField parsed "current"
  let curField := fun (k : String) => cur.bind (fun c => getField c k)
  let current : CurrentH :=
    { customerName := coerceStr numStr (curField "customerName") ""
      customerPhone := coerceStr numStr (curField "customerPhone") ""
      customerEmail := coerceStr numStr (curField "customerEmail") ""
      customerNotes := coerceStr numStr (curField "customerNotes") ""
      title := coerceStr numStr (curField "title") "הצעת מחיר"
      items := match curField "items" with
        | some (.arrV xs) => xs
        | _ => []
      taxPercentText := coerceStr numStr (curField "taxPercentText") "17"
      notes := coerceStr numStr (curField "notes") "" }
  let uiRaw := getField parsed "ui"
  let uiField := fun (k : String) => uiRaw.bind (fun c => getField c k)
  let tab : TabH := match uiField "tab" with
    | some (.strV "customers") => .customersTab
    | _ => .quoteTab
  let settingsOpen := match uiField "settingsOpen" with
    | none => false
    | some .nullV => false
    | some v => jsTruthy v
  { customers := customers
    quotes := quotes
    profiles := profiles
    current := current
    ui := { tab := tab, settingsOpen := settingsOpen } }

/-- Result of hydration: the state plus the at-most-one backup write
(`key`, `value`) that `hydrateState` issues to `localStorage`. -/
structure HydrateResult where
  state : AppStateH
  backupWrite : Option (String × String)

/-- `hydrateState` from App.tsx lines 141–182.  `raw` is the stored blob
(`none` when the key is absent) and `parseJson` models `JSON.parse`, with
`none` for a parse exception.  The source's guard `if (!raw)` is a
truthiness test, so it returns the default state not only for an absent
key (`null`) but also for an empty-string blob — neither reaches
`JSON.parse` and neither writes a backup.  Only a non-empty blob raising a
parse exception is saved under `LS_KEY ++ ":backup"` with the default
state returned. -/
def hydrateState (numStr : ℚ → String) (parseJson : String → Option JsValue)
    (raw : Option String) : HydrateResult :=
  match raw with
  | none => ⟨DEFAULT_STATE, none⟩
  | some s =>
    if s = "" then ⟨DEFAULT_STATE, none⟩
    else
      match parseJson s with
      | none => ⟨DEFAULT_STATE, some (LS_KEY ++ ":backup", s)⟩
      | some parsed => ⟨coerceState numStr parsed, none⟩

end App

/-! ## PDF export module — `src/pdfExporter.ts` -/

namespace Pdf

/-- The `string | number | null | undefined` input of the pdfExporter's
`parseLooseNumber`. -/
inductive JsNumInput where
  | str : String → JsNumInput
  | num : ℚ → JsNumInput
  | nullish : JsNumInput

/-- `parseLooseNumber` from pdfExporter.ts lines 59–65.  A finite number
passes through, `null`/`undefined` yield `0`, and a string is cleaned,
comma-replaced and `parseFloat`-ed with `NaN` (parse failure) degrading
to `0`. -/
def parseLooseNumber : JsNumInput → ℚ
  | .num q => q
  | .nullish => 0
  | .str s => (parseFloatClean (cleanNumeric s)).getD 0

/-- Shorthand for the string case, the one exercised by every call site in
the table/totals code. -/
def parseLooseNumberS (s : String) : ℚ := parseLooseNumber (.str s)

/-- `normalizeTaxPercent` from pdfExporter.ts lines 67–71: `0` for any
non-positive (or non-finite) input, whole-percentage division for inputs
above `1`, identity otherwise. -/
def normalizeTaxPercent (raw : ℚ) : ℚ :=
  if raw ≤ 0 then 0
  else if 1 < raw then raw / 100
  else raw

structure PdfAddon where
  name : String
  price : String
  checked : Bool
deriving DecidableEq

/-- `PdfLineItem` from pdfExporter.ts lines 16–27.  `location`, `details`
and `profileName` are optional strings whose only use is behind JavaScript
truthiness tests, where `undefined` and `""` coincide, so they are plain
strings here with `""` for absent.  `subtotal` keeps its `number |
undefined` type as `Option ℚ`. -/
structure PdfLineItem where
  id : String
  widthCm : String
  heightCm : String
  qty : String
  location : String
  details : String
  unitPrice : String
  subtotal : Option ℚ
  addons : List PdfAddon
  profileName : String
deriving DecidableEq

structure PdfQuotePayload where
  title : String
  customerName : String
  customerPhone : String
  customerEmail : String
  notes : String
  taxPercentText : String
  items : List PdfLineItem

/-- The per-row recomputation in `drawItemsTable` (pdfExporter.ts lines
556–564): `lineTotal = (area * unitPrice + addonsSum) * max 0 qty`. -/
def lineTotal (it : PdfLineItem) : ℚ :=
  let w := parseLooseNumberS it.widthCm
  let h := parseLooseNumberS it.heightCm
  let qty := max 0 (parseLooseNumberS it.qty)
  let area := w * h / 10000
  let addonsSum := it.addons.foldl
    (fun s a => s + (if a.checked then parseLooseNumberS a.price else 0)) 0
  let unitPriceNum := parseLooseNumberS it.unitPrice
  let perItemPrice := area * unitPriceNum + addonsSum
  perItemPrice * qty

/-- The subtotal fold of `exportQuotePdf` (pdfExporter.ts lines 287–300):
an item's frozen `subtotal` is used when it is a number, otherwise the
line total is recomputed from the raw fields. -/
def exportSub (items : List PdfLineItem) : ℚ :=
  items.foldl
    (fun sum it => sum +
      (match it.subtotal with
       | some q => q
       | none => lineTotal it))
    0

/-! ### Bidirectional text placement — `drawTextSmart` -/

inductive Align where
  | left : Align
  | right : Align
  | center : Align
deriving DecidableEq

structure DrawOpts where
  align : Option Align
  forceRtl : Option Bool

/-- `HEBREW_REGEX.test(text)` with `HEBREW_REGEX = /[֐-׿]/`
(pdfExporter.ts lines 6 and 86–88). -/
def isRTLText (text : String) : Bool :=
  text.toList.any (fun c => 0x590 ≤ c.toNat && c.toNat ≤ 0x5FF)

/-- The direction/alignment resolution of `drawTextSmart` (pdfExporter.ts
lines 92–110): `rtl = opts.forceRtl ?? isRTLText(text)` and
`align = opts.align ?? (rtl ? "right" : "left")`.  The actual canvas call
`doc.text` is the collaborator side effect; the resolved pair is what the
claims are about. -/
def drawTextSmart (text : String) (opts : DrawOpts) : Bool × Align :=
  let rtl := opts.forceRtl.getD (isRTLText text)
  let align := opts.align.getD (if rtl then .right else .left)
  (rtl, align)

/-! ### Export entry point — `exportQuotePdf` validation -/

/-- Observable outcome of `exportQuotePdf`: either an early abort behind a
user-facing `alert` message, or the document generation goes ahead. -/
inductive ExportOutcome where
  | aborted : String → ExportOutcome
  | generated : ExportOutcome
deriving DecidableEq

/-- The control flow of `exportQuotePdf` up to document generation
(pdfExporter.ts lines 190–217): dynamic `import("jspdf")` failure
(modelled by `jspdfAvailable = false`), then the empty-customer-name and
empty-item-list validations, each aborting with an alert; with all three
past, drawing proceeds.  The function touches no application state on any
path. -/
def exportQuotePdf (jspdfAvailable : Bool) (payload : PdfQuotePayload) : ExportOutcome :=
  if !jspdfAvailable then
    .aborted "חסרות חבילות PDF. התקן/י: npm i jspdf"
  else if jsTrim payload.customerName = "" then
    .aborted "אנא הזן/י שם לקוח לפני יצוא PDF"
  else if payload.items.isEmpty then
    .aborted "ההצעה ריקה. הוסף/י פריטים לפני יצוא PDF."
  else
    .generated

/-! ### Items-table layout — `drawItemsTable`

Only the vertical geometry matters to the pagination claims, so the model
records the sequence of page breaks, header draws, and row placements with
their `y` coordinates and heights.  `splitTextToSize` (text wrapping) and
the `Intl` number formatter are canvas/host collaborators passed in as
functions. -/

inductive Ev where
  | pageBreak : Ev
  | header : ℚ → Ev
  | row : ℕ → ℚ → ℚ → Ev
deriving DecidableEq

/-- Vertical geometry parameters of `drawItemsTable`. -/
structure Geom where
  pageHeight : ℚ
  marginTop : ℚ
  marginBottom : ℚ

def headerHeight : ℚ := 24
def rowLineHeight : ℚ := 14

/-- `formatMoneyPdf` (pdfExporter.ts lines 78–81): formatted digits plus a
trailing shekel sign; `numFmt` stands in for `Intl.NumberFormat`. -/
def formatMoneyPdf (numFmt : ℚ → String) (v : ℚ) : String :=
  numFmt v ++ " ₪"

/-- `[a, b].filter(Boolean).join(sep)`. -/
def joinNonEmpty (sep : String) (xs : List String) : String :=
  String.intercalate sep (xs.filter (fun s => s ≠ ""))

/-- `addonsText` for one row (pdfExporter.ts lines 549–552): checked
add-ons rendered as `name (price ₪)` joined by a bullet separator. -/
def addonsText (numFmt : ℚ → String) (addons : List PdfAddon) : String :=
  String.intercalate " • "
    ((addons.filter (fun a => a.checked)).map
      (fun a => a.name ++ " (" ++ formatMoneyPdf numFmt (parseLooseNumberS a.price) ++ ")"))

/-- `dimsRaw` (pdfExporter.ts line 547): rounded width × rounded height. -/
def dimsRaw (it : PdfLineItem) : String :=
  toString (jsRound (parseLooseNumberS it.widthCm)) ++ "×"
    ++ toString (jsRound (parseLooseNumberS it.heightCm))

/-- The per-cell wrapped line lists of one row (pdfExporter.ts lines
571–585); `split` is the canvas's `splitTextToSize`, given the cell text
and the column width minus padding. -/
def cellLineLists (split : String → ℚ → List String) (numFmt : ℚ → String)
    (it : PdfLineItem) : List (List String) :=
  let detailsFull := joinNonEmpty " — " [it.details, addonsText numFmt it.addons]
  let profileLines := if it.profileName ≠ "" then split it.profileName (70 - 8) else []
  let locationLines := if it.location ≠ "" then split it.location (70 - 8) else []
  let detailsLines := if detailsFull ≠ "" then split detailsFull (130 - 8) else []
  let dimsLines := if dimsRaw it ≠ "" then split (dimsRaw it) (65 - 8) else []
  [profileLines, locationLines, detailsLines, dimsLines]

/-- `linesCount` (pdfExporter.ts lines 587–593): at least one line, else
the maximum wrapped line count over the variable-width cells. -/
def rowLines (split : String → ℚ → List String) (numFmt : ℚ → String)
    (it : PdfLineItem) : ℕ :=
  max 1 (((cellLineLists split numFmt it).map List.length).foldr max 0)

/-- `rowHeight = linesCount * rowLineHeight + 6` (pdfExporter.ts line 594). -/
def rowHeightOf (split : String → ℚ → List String) (numFmt : ℚ → String)
    (it : PdfLineItem) : ℚ :=
  (rowLines split numFmt it : ℚ) * rowLineHeight + 6

/-- `drawHeader` (pdfExporter.ts lines 481–520): page-break first if the
header itself would cross the bottom margin, then draw the header at the
current `y` and advance past it.  Returns the emitted events and the new
`y`. -/
def drawHeaderEvents (g : Geom) (y : ℚ) : List Ev × ℚ :=
  if y + headerHeight > g.pageHeight - g.marginBottom then
    ([.pageBreak, .header g.marginTop], g.marginTop + headerHeight)
  else ([.header y], y + headerHeight)

/-- The row loop of `drawItemsTable` (pdfExporter.ts lines 544–668),
folded over the precomputed row heights: a row that would cross
`pageHeight - marginBottom` first triggers `addPage`, `y = marginTop` and
a redrawn header, then every row is placed at the current `y` and `y`
advances by its height. -/
def layoutRows (g : Geom) : List ℚ → ℚ → ℕ → List Ev × ℚ
  | [], y, _ => ([], y)
  | h :: rest, y, idx =>
    if y + h > g.pageHeight - g.marginBottom then
      (Ev.pageBreak :: (drawHeaderEvents g g.marginTop).1
          ++ Ev.row idx (drawHeaderEvents g g.marginTop).2 h
            :: (layoutRows g rest ((drawHeaderEvents g g.marginTop).2 + h) (idx + 1)).1,
        (layoutRows g rest ((drawHeaderEvents g g.marginTop).2 + h) (idx + 1)).2)
    else
      (Ev.row idx y h :: (layoutRows g rest (y + h) (idx + 1)).1,
        (layoutRows g rest (y + h) (idx + 1)).2)

/-- `drawItemsTable` (pdfExporter.ts lines 413–671), vertical behaviour:
an empty item list returns the start `y` untouched; otherwise the header
is drawn once and the rows are laid out in order. -/
def drawItemsTable (split : String → ℚ → List String) (numFmt : ℚ → String)
    (g : Geom) (items : List PdfLineItem) (startY : ℚ) : List Ev × ℚ :=
  if items.isEmpty then ([], startY)
  else
    ((drawHeaderEvents g startY).1
        ++ (layoutRows g (items.map (rowHeightOf split numFmt))
            (drawHeaderEvents g startY).2 0).1,
      (layoutRows g (items.map (rowHeightOf split numFmt))
          (drawHeaderEvents g startY).2 0).2)

/-- Scans forward from just after a header: is a row drawn on the same
page (before the next page break / end of document)? -/
def rowBeforeBreak : List Ev → Bool
  | [] => false
  | Ev.row _ _ _ :: _ => true
  | Ev.pageBreak :: _ => false
  | Ev.header _ :: rest => rowBeforeBreak rest

/-- Every header drawn is followed by at least one row on its own page. -/
def headersHaveRow : List Ev → Bool
  | [] => true
  | Ev.header _ :: rest => rowBeforeBreak rest && headersHaveRow rest
  | Ev.pageBreak :: rest => headersHaveRow rest
  | Ev.row _ _ _ :: rest => headersHaveRow rest

/-- Every page break is immediately followed by a header at the top margin
and a row placed directly below it. -/
def breaksFollowed (g : Geom) : List Ev → Bool
  | [] => true
  | Ev.pageBreak :: rest =>
    match rest with
    | Ev.header y :: Ev.row _ yr _ :: rest2 =>
      y = g.marginTop && yr = g.marginTop + headerHeight && breaksFollowed g rest2
    | _ => false
  | Ev.header _ :: rest => breaksFollowed g rest
  | Ev.row _ _ _ :: rest => breaksFollowed g rest

/-- The indices of the rows drawn, in order. -/
def rowIdxs (tr : List Ev) : List ℕ :=
  tr.filterMap (fun e => match e with | Ev.row i _ _ => some i | _ => none)

end Pdf

/-! ## Bridging App.tsx line items into the pdfExporter structures -/

def toPdfAddon (a : App.Addon) : Pdf.PdfAddon :=
  ⟨a.name, a.price, a.checked⟩

/-- An App.tsx `LineItem` viewed through the pdfExporter's structural
`PdfLineItem` interface (same text fields, frozen subtotal present). -/
def toPdfItem (it : App.LineItem) : Pdf.PdfLineItem :=
  { id := it.id
    widthCm := it.widthCm
    heightCm := it.heightCm
    qty := it.qty
    location := it.location
    details := it.details
    unitPrice := it.unitPrice
    subtotal := some it.subtotal
    addons := it.addons.map toPdfAddon
    profileName := it.profileName.getD "" }

/-! ## Concrete fixtures used by the witnesses and counterexamples -/

/-- A committed draft whose quantity text parses to a negative number. -/
def sampleDraft : App.Draft :=
  { widthCm := some "100"
    heightCm := some "200"
    qty := some "-5"
    profileId := none
    profileName := some "4300"
    unitPrice := some "10"
    location := some "סלון"
    details := some ""
    addons := some
      [ ⟨"a1", "רשת", "300", true⟩
      , ⟨"a2", "פרזול איכותי", "999", false⟩ ] }

/-- A line item carrying a frozen subtotal and deliberately garbled text
fields (the totals must not depend on them). -/
def frozenItem (texts : String) (sub : ℚ) : App.LineItem :=
  ⟨"id", texts, texts, texts, none, none, texts, "", "", [], sub⟩

def sampleItems : List App.LineItem :=
  [frozenItem "xx" 100, frozenItem "yy" 200, frozenItem "zz" 50]

/-- Same frozen subtotals as `sampleItems`, different raw texts. -/
def sampleItemsAlt : List App.LineItem :=
  [frozenItem "1" 100, frozenItem "2" 200, frozenItem "3" 50]

def samplePdfItem : Pdf.PdfLineItem :=
  { id := "it1"
    widthCm := "100"
    heightCm := "200"
    qty := "1"
    location := ""
    details := ""
    unitPrice := "10"
    subtotal := none
    addons := []
    profileName := "" }

def payloadBlankName : Pdf.PdfQuotePayload :=
  ⟨"הצעת מחיר", "   ", "", "", "", "17", [samplePdfItem]⟩

def payloadNoItems : Pdf.PdfQuotePayload :=
  ⟨"הצעת מחיר", "Dana", "", "", "", "17", []⟩

def payloadOk : Pdf.PdfQuotePayload :=
  ⟨"הצעת מחיר", "Dana", "", "", "", "17", [samplePdfItem]⟩

/-- A wrapping collaborator that puts any text on a single line. -/
def splitOneLine : String → ℚ → List String := fun _ _ => ["line"]

/-- A number formatter stub. -/
def fmtStub : ℚ → String := fun _ => "0"

/-- A blank one-line table item. -/
def blankPdfItem : Pdf.PdfLineItem :=
  ⟨"", "", "", "", "", "", "", none, [], ""⟩

/-- Geometry for the header-separation counterexample: content area ends at
`y = 160`, and the table starts at `y = 130`, so the header (24pt) still
fits on the first page but the first row (20pt) does not. -/
def gSep : Pdf.Geom := ⟨200, 40, 40⟩

def sampleQuote : App.Quote := ⟨"q1", "cust1", "t", 0, [], 17, ⟨100, 17, 117⟩⟩

/-- A second quote for the same customer. -/
def sampleQuoteB : App.Quote := ⟨"q2", "cust1", "t2", 1, [], 17, ⟨200, 34, 234⟩⟩

/-! ## Shared lemmas -/

theorem keepNumericChar_of_isWhitespace {c : Char} (h : c.isWhitespace = true) :
    keepNumericChar c = false := by
  simp only [Char.isWhitespace, Bool.or_eq_true, decide_eq_true_eq] at h
  rcases h with ((rfl | rfl) | rfl) | rfl <;> decide

theorem cleanNumeric_of_all_whitespace {s : String}
    (h : s.toList.all Char.isWhitespace = true) : cleanNumeric s = "" := by
  have hnil : s.toList.filter keepNumericChar = [] := by
    rw [List.filter_eq_nil]
    intro c hc
    have hw := List.all_eq_true.mp h c hc
    simp [keepNumericChar_of_isWhitespace hw]
  unfold cleanNumeric
  rw [hnil]
  rfl

theorem parseFloatClean_empty : parseFloatClean "" = none := rfl

/-- The two copies of `parseLooseNumber` (App.tsx and pdfExporter.ts) agree
on every string input. -/
theorem parseLooseNumber_agree (s : String) :
    Pdf.parseLooseNumber (.str s) = App.parseLooseNumber s := by
  show (parseFloatClean (cleanNumeric s)).getD 0 = App.parseLooseNumber s
  unfold App.parseLooseNumber
  by_cases h : s.toList.all Char.isWhitespace = true
  · rw [if_pos h, cleanNumeric_of_all_whitespace h, parseFloatClean_empty]
    rfl
  · rw [if_neg h]

theorem parseLooseNumber_17 : App.parseLooseNumber "17" = 17 := by
  have h : App.parseLooseNumber "17" = partsVal ⟨false, 17, 0, 0⟩ := rfl
  rw [h]; norm_num [partsVal]

theorem parseLooseNumber_groupedExample :
    App.parseLooseNumber "1,234.5₪" = 1.234 := by
  have h : App.parseLooseNumber "1,234.5₪" = partsVal ⟨false, 1, 234, 3⟩ := rfl
  rw [h]; norm_num [partsVal]

theorem parseLooseNumber_neg5 : App.parseLooseNumber "-5" = -5 := by
  have h : App.parseLooseNumber "-5" = partsVal ⟨true, 5, 0, 0⟩ := rfl
  rw [h]; norm_num [partsVal]

/-! ## C3 — loose number parsing -/

/-- C3 (amended): `parseLooseNumber` strips every character outside
digits/comma/period/minus (stripping them first does not change the
result), the pdfExporter and App.tsx copies agree on strings,
empty/whitespace-only text and `null` parse to `0`, `"abc"` parses to `0`
— but `"1,234.5₪"` parses to `1.234`, not `1234.5`: the first comma is
replaced by a period, producing `"1.234.5"`, and `parseFloat` stops at the
second period. -/
theorem C3_parseLooseNumber_contract :
    (∀ s : String, s.toList.all Char.isWhitespace = true →
      App.parseLooseNumber s = 0)
    ∧ (∀ s : String, Pdf.parseLooseNumber (.str s) = App.parseLooseNumber s)
    ∧ Pdf.parseLooseNumber .nullish = 0
    ∧ App.parseLooseNumber "" = 0
    ∧ App.parseLooseNumber "abc" = 0
    ∧ App.parseLooseNumber "1,234.5₪" = 1.234
    ∧ (∀ s : String,
        App.parseLooseNumber (String.mk (s.toList.filter keepNumericChar))
          = App.parseLooseNumber s) := by
  refine ⟨?_, parseLooseNumber_agree, rfl, rfl, rfl,
    parseLooseNumber_groupedExample, ?_⟩
  · intro s h
    unfold App.parseLooseNumber
    rw [if_pos h]
  · intro s
    unfold App.parseLooseNumber
    have hlist : (String.mk (s.toList.filter keepNumericChar)).toList
        = s.toList.filter keepNumericChar := rfl
    have hclean : cleanNumeric (String.mk (s.toList.filter keepNumericChar))
        = cleanNumeric s := by
      unfold cleanNumeric
      rw [hlist, List.filter_filter]
      simp
    by_cases hws : s.toList.all Char.isWhitespace = true
    · have hnil : s.toList.filter keepNumericChar = [] := by
        rw [List.filter_eq_nil]
        intro c hc
        have hw := List.all_eq_true.mp hws c hc
        simp [keepNumericChar_of_isWhitespace hw]
      rw [if_pos hws, hlist, hnil]
      simp
    · rw [if_neg hws]
      by_cases hws2 : (String.mk (s.toList.filter keepNumericChar)).toList.all
          Char.isWhitespace = true
      · -- every kept character is non-whitespace, so the filtered list is empty
        have hnil : s.toList.filter keepNumericChar = [] := by
          rw [List.filter_eq_nil]
          intro c hc
          intro hkeep
          have hw : c.isWhitespace = true := by
            have := List.all_eq_true.mp hws2 c
            rw [hlist] at this
            exact this (List.mem_filter.mpr ⟨hc, hkeep⟩)
          rw [keepNumericChar_of_isWhitespace hw] at hkeep
          exact Bool.false_ne_true hkeep
        rw [if_pos hws2]
        have hclean2 : cleanNumeric s = "" := by
          unfold cleanNumeric
          rw [hnil]
          rfl
        rw [hclean2, parseFloatClean_empty]
        rfl
      · rw [if_neg hws2, hclean]

/-- C3 counterexample: the claim's example value is wrong on the code —
`parseLooseNumber("1,234.5₪")` is `1.234`, not `1234.5`. -/
theorem C3_parseLooseNumber_counterexample :
    App.parseLooseNumber "1,234.5₪" ≠ 1234.5 := by
  rw [parseLooseNumber_groupedExample]
  norm_num

/-- C3 witness: the whitespace clause of the contract applied at `" "`. -/
theorem C3_parseLooseNumber_witness :
    (" ".toList.all Char.isWhitespace = true) ∧ App.parseLooseNumber " " = 0 :=
  ⟨by decide, C3_parseLooseNumber_contract.1 " " (by decide)⟩

/-! ## Fold lemmas for the add-on and subtotal sums -/

theorem foldl_add_map {α : Type} (f : α → ℚ) (l : List α) (c : ℚ) :
    l.foldl (fun s a => s + f a) c = c + (l.map f).sum := by
  induction l generalizing c with
  | nil => simp
  | cons a t ih => simp [ih, add_assoc]

theorem sum_map_ite (l : List App.Addon) :
    (l.map (fun a => if a.checked then App.parseLooseNumber a.price else 0)).sum
      = ((l.filter (fun a => a.checked)).map
          (fun a => App.parseLooseNumber a.price)).sum := by
  induction l with
  | nil => rfl
  | cons a t ih => by_cases hc : a.checked <;> simp [hc, ih]

/-- Only checked add-ons contribute to the add-ons sum. -/
theorem addonsSum_eq_filter (l : List App.Addon) :
    App.addonsSum l
      = ((l.filter (fun a => a.checked)).map
          (fun a => App.parseLooseNumber a.price)).sum := by
  unfold App.addonsSum
  rw [foldl_add_map
      (fun a : App.Addon => if a.checked then App.parseLooseNumber a.price else 0) l 0,
    zero_add, sum_map_ite]

/-- The pdfExporter add-ons fold over the bridged add-ons equals the
App.tsx add-ons sum. -/
theorem pdfAddonsFold_eq (l : List App.Addon) :
    (l.map toPdfAddon).foldl
        (fun s a => s + (if a.checked then Pdf.parseLooseNumberS a.price else 0)) 0
      = App.addonsSum l := by
  unfold App.addonsSum
  rw [foldl_add_map
      (fun a : Pdf.PdfAddon => if a.checked then Pdf.parseLooseNumberS a.price else 0)
      (l.map toPdfAddon) 0,
    foldl_add_map
      (fun a : App.Addon => if a.checked then App.parseLooseNumber a.price else 0) l 0,
    List.map_map]
  congr 1
  refine congrArg List.sum ?_
  apply List.map_congr_left
  intro a _
  show (if a.checked then Pdf.parseLooseNumberS a.price else 0)
    = (if a.checked then App.parseLooseNumber a.price else 0)
  rw [show Pdf.parseLooseNumberS a.price = App.parseLooseNumber a.price from
    parseLooseNumber_agree a.price]

/-- `subTotal` is the sum of the frozen `subtotal` fields. -/
theorem subTotal_eq_sum (items : List App.LineItem) :
    App.subTotal items = (items.map (fun it => it.subtotal)).sum := by
  unfold App.subTotal
  rw [foldl_add_map (fun it : App.LineItem => it.subtotal) items 0, zero_add]

/-! ## C1 — committed line-item subtotal -/

/-- C1: the subtotal frozen by `addItem` is
`(width*height/10000 * unit + addonsSum) * max 0 qty`, where each factor is
the loose parse of the corresponding draft text and only checked add-ons
contribute; a quantity text parsing non-positively (e.g. `"-5"`, or the
empty default) forces the subtotal to `0`; and the pdfExporter table's
per-row recomputation (`lineTotal`) agrees with the frozen subtotal. -/
theorem C1_addItem_subtotal (freshId : String) (d : App.Draft) :
    (App.addItem freshId d).subtotal
      = (App.parseLooseNumber (d.widthCm.getD "")
            * App.parseLooseNumber (d.heightCm.getD "") / 10000
            * App.parseLooseNumber (d.unitPrice.getD "0")
          + App.addonsSum (d.addons.getD []))
        * max 0 (App.parseLooseNumber (d.qty.getD ""))
    ∧ App.addonsSum (d.addons.getD [])
        = (((d.addons.getD []).filter (fun a => a.checked)).map
            (fun a => App.parseLooseNumber a.price)).sum
    ∧ (App.parseLooseNumber (d.qty.getD "") ≤ 0 →
        (App.addItem freshId d).subtotal = 0)
    ∧ Pdf.lineTotal (toPdfItem (App.addItem freshId d))
        = (App.addItem freshId d).subtotal := by
  have hsub : (App.addItem freshId d).subtotal
      = (App.parseLooseNumber (d.widthCm.getD "")
            * App.parseLooseNumber (d.heightCm.getD "") / 10000
            * App.parseLooseNumber (d.unitPrice.getD "0")
          + App.addonsSum (d.addons.getD []))
        * max 0 (App.parseLooseNumber (d.qty.getD "")) := rfl
  refine ⟨hsub, addonsSum_eq_filter _, ?_, ?_⟩
  · intro hq
    rw [hsub, max_eq_left hq, mul_zero]
  · show Pdf.lineTotal (toPdfItem (App.addItem freshId d))
      = (App.addItem freshId d).subtotal
    unfold Pdf.lineTotal
    simp only [toPdfItem]
    rw [pdfAddonsFold_eq]
    simp only [show ∀ s, Pdf.parseLooseNumberS s = App.parseLooseNumber s from
      fun s => parseLooseNumber_agree s]
    rfl

/-- C1 witness: committing `sampleDraft`, whose quantity text `"-5"`
parses to `-5 ≤ 0`, yields a zero (hence non-negative) subtotal. -/
theorem C1_addItem_subtotal_witness :
    App.parseLooseNumber "-5" ≤ 0
    ∧ (App.addItem "item-1" sampleDraft).subtotal = 0 := by
  have hq : App.parseLooseNumber "-5" ≤ 0 := by
    rw [parseLooseNumber_neg5]; norm_num
  exact ⟨hq, (C1_addItem_subtotal "item-1" sampleDraft).2.2.1 hq⟩

/-! ## C2 — quote totals -/

/-- C2: `computeQuoteTotals` sums the items' already-frozen `subtotal`
fields (two item lists with equal subtotal sequences get identical totals,
whatever their raw text fields), multiplies that sum by the normalized tax
to get the tax, adds the two for the grand total, and on subtotals
`[100, 200, 50]` with tax text `"17"` yields `sub = 350`, `tax = 59.5`,
`grand = 409.5`. -/
theorem C2_computeQuoteTotals (items : List App.LineItem) (t : String) :
    (App.computeQuoteTotals items t).sub = (items.map (fun it => it.subtotal)).sum
    ∧ (App.computeQuoteTotals items t).tax
        = (App.computeQuoteTotals items t).sub
          * App.normalizeTaxPercent (App.parseLooseNumber t)
    ∧ (App.computeQuoteTotals items t).grand
        = (App.computeQuoteTotals items t).sub + (App.computeQuoteTotals items t).tax
    ∧ (∀ items2 : List App.LineItem,
        items2.map (fun it => it.subtotal) = items.map (fun it => it.subtotal) →
        App.computeQuoteTotals items2 t = App.computeQuoteTotals items t)
    ∧ Pdf.exportSub (items.map toPdfItem) = App.subTotal items
    ∧ App.computeQuoteTotals sampleItems "17"
        = ⟨350, 59.5, 409.5⟩ := by
  refine ⟨subTotal_eq_sum items, rfl, rfl, ?_, ?_, ?_⟩
  · intro items2 h
    have hs : App.subTotal items2 = App.subTotal items := by
      rw [subTotal_eq_sum, subTotal_eq_sum, h]
    unfold App.computeQuoteTotals App.taxValue App.grandTotal App.taxValue
    rw [hs]
  · unfold Pdf.exportSub
    rw [foldl_add_map
        (fun it : Pdf.PdfLineItem =>
          match it.subtotal with
          | some q => q
          | none => Pdf.lineTotal it)
        (items.map toPdfItem) 0,
      zero_add, List.map_map, subTotal_eq_sum]
    refine congrArg List.sum ?_
    apply List.map_congr_left
    intro it _
    rfl
  · have hs : App.subTotal sampleItems = 350 := by
      simp [App.subTotal, sampleItems, frozenItem]
      norm_num
    have ht : App.taxDecimal "17" = 17 / 100 := by
      unfold App.taxDecimal
      rw [parseLooseNumber_17]
      norm_num [App.normalizeTaxPercent]
    unfold App.computeQuoteTotals App.grandTotal App.taxValue
    rw [hs, ht]
    norm_num

/-- C2 witness: the frozen-subtotal clause applied to two concrete lists
with identical subtotal sequences but different text fields. -/
theorem C2_computeQuoteTotals_witness :
    sampleItemsAlt.map (fun it => it.subtotal)
        = sampleItems.map (fun it => it.subtotal)
    ∧ App.computeQuoteTotals sampleItemsAlt "17"
        = App.computeQuoteTotals sampleItems "17" :=
  ⟨rfl, (C2_computeQuoteTotals sampleItems "17").2.2.2.1 sampleItemsAlt rfl⟩

/-! ## C4 — tax normalization -/

/-- C4 (amended): the pdfExporter copy of `normalizeTaxPercent` matches the
claimed contract (`0` for non-positive input, `/100` above `1`, identity on
`(0, 1]`); the App.tsx copy matches it for input `0` and on the positive
range but passes negative inputs through unchanged, so
`normalizeTaxPercent(-5)` is `-5` there (and `0` in pdfExporter.ts).  Both
copies send `18` and `0.18` to `0.18`. -/
theorem C4_normalizeTaxPercent_contract :
    (∀ q : ℚ, q ≤ 0 → Pdf.normalizeTaxPercent q = 0)
    ∧ (∀ q : ℚ, 1 < q →
        Pdf.normalizeTaxPercent q = q / 100 ∧ App.normalizeTaxPercent q = q / 100)
    ∧ (∀ q : ℚ, 0 < q → q ≤ 1 →
        Pdf.normalizeTaxPercent q = q ∧ App.normalizeTaxPercent q = q)
    ∧ App.normalizeTaxPercent 0 = 0
    ∧ (∀ q : ℚ, q < 0 → App.normalizeTaxPercent q = q)
    ∧ App.normalizeTaxPercent 18 = 0.18
    ∧ Pdf.normalizeTaxPercent 18 = 0.18
    ∧ App.normalizeTaxPercent 0.18 = 0.18
    ∧ Pdf.normalizeTaxPercent (-5) = 0 := by
  refine ⟨?_, ?_, ?_, by norm_num [App.normalizeTaxPercent], ?_,
    by norm_num [App.normalizeTaxPercent],
    by norm_num [Pdf.normalizeTaxPercent],
    by norm_num [App.normalizeTaxPercent],
    by norm_num [Pdf.normalizeTaxPercent]⟩
  · intro q hq
    simp only [Pdf.normalizeTaxPercent, if_pos hq]
  · intro q hq
    constructor
    · simp only [Pdf.normalizeTaxPercent]
      rw [if_neg (by linarith), if_pos hq]
    · simp only [App.normalizeTaxPercent]
      rw [if_neg (by linarith), if_pos hq]
  · intro q hq0 hq1
    constructor
    · simp only [Pdf.normalizeTaxPercent]
      rw [if_neg (by linarith), if_neg (by linarith)]
    · simp only [App.normalizeTaxPercent]
      rw [if_neg (by linarith), if_neg (by linarith)]
  · intro q hq
    simp only [App.normalizeTaxPercent]
    rw [if_neg (by linarith), if_neg (by linarith)]

/-- C4 counterexample: App.tsx's `normalizeTaxPercent` does not return `0`
for the negative input `-5`; it returns `-5`. -/
theorem C4_normalizeTaxPercent_counterexample :
    App.normalizeTaxPercent (-5) = -5 ∧ (-5 : ℚ) ≠ 0 := by
  constructor
  · norm_num [App.normalizeTaxPercent]
  · norm_num

/-- C4 witness: the `(0, 1]` identity clause applied at `1/2`, and the
negative pass-through clause applied at `-5`. -/
theorem C4_normalizeTaxPercent_witness :
    ((0 : ℚ) < 1/2 ∧ (1/2 : ℚ) ≤ 1 ∧ App.normalizeTaxPercent (1/2) = 1/2)
    ∧ ((-5 : ℚ) < 0 ∧ App.normalizeTaxPercent (-5) = -5) :=
  ⟨⟨by norm_num, by norm_num,
      (C4_normalizeTaxPercent_contract.2.2.1 (1/2) (by norm_num) (by norm_num)).2⟩,
    ⟨by norm_num, C4_normalizeTaxPercent_contract.2.2.2.2.1 (-5) (by norm_num)⟩⟩

/-! ## C5 — customer deduplication by trimmed name -/

/-- C5: saving under a name with no exact-trimmed match appends one new
`Customer`; a second save whose name trims to the identical string updates
that same record in place — keeping its id, with non-empty new phone/email
winning over the stored ones — instead of creating a second customer. -/
theorem C5_customer_dedup (customers : List App.Customer)
    (id1 id2 : String) (t1 t2 : Int)
    (name1 phone1 email1 notes1 name2 phone2 email2 notes2 : String)
    (hnone : ∀ c ∈ customers, c.name ≠ jsTrim name1)
    (hid : ∀ c ∈ customers, c.id ≠ id1)
    (heq : jsTrim name2 = jsTrim name1) :
    (App.ensureCustomerByName id1 t1 customers name1 phone1 email1 notes1).2
      = customers ++ [⟨id1, jsTrim name1, phone1, email1, notes1, t1⟩]
    ∧ (App.ensureCustomerByName id2 t2
          (customers ++ [⟨id1, jsTrim name1, phone1, email1, notes1, t1⟩])
          name2 phone2 email2 notes2).1
      = ⟨id1, jsTrim name1, (if phone2 ≠ "" then phone2 else phone1),
          (if email2 ≠ "" then email2 else email1), notes2, t1⟩
    ∧ (App.ensureCustomerByName id2 t2
          (customers ++ [⟨id1, jsTrim name1, phone1, email1, notes1, t1⟩])
          name2 phone2 email2 notes2).2
      = customers ++ [⟨id1, jsTrim name1, (if phone2 ≠ "" then phone2 else phone1),
          (if email2 ≠ "" then email2 else email1), notes2, t1⟩] := by
  have hfind1 : customers.find? (fun c => c.name = jsTrim name1) = none := by
    rw [List.find?_eq_none]
    intro c hc
    simp [hnone c hc]
  have hfind2 :
      (customers ++ [(⟨id1, jsTrim name1, phone1, email1, notes1, t1⟩ : App.Customer)]).find?
          (fun c => c.name = jsTrim name2)
        = some ⟨id1, jsTrim name1, phone1, email1, notes1, t1⟩ := by
    rw [heq, List.find?_append, hfind1, Option.none_or]
    exact List.find?_cons_of_pos _ (by simp)
  have hmap : ∀ (u : App.Customer), u.id = id1 →
      (customers ++ [(⟨id1, jsTrim name1, phone1, email1, notes1, t1⟩ : App.Customer)]).map
          (fun c => if c.id = u.id then u else c)
        = customers ++ [u] := by
    intro u hu
    rw [List.map_append]
    congr 1
    · have hfix : ∀ c ∈ customers, (if c.id = u.id then u else c) = c := by
        intro c hc
        rw [if_neg]
        rw [hu]
        exact hid c hc
      rw [List.map_congr_left hfix, List.map_id']
    · simp [hu]
  refine ⟨?_, ?_, ?_⟩
  · simp only [App.ensureCustomerByName]
    rw [hfind1]
  · simp only [App.ensureCustomerByName]
    rw [hfind2]
  · simp only [App.ensureCustomerByName]
    rw [hfind2]
    exact hmap ⟨id1, jsTrim name1, (if phone2 ≠ "" then phone2 else phone1),
      (if email2 ≠ "" then email2 else email1), notes2, t1⟩ rfl

/-- C5 witness: two concrete saves, `" Dana "` then `"Dana "`, end with the
single customer record `"Dana"` carrying the merged contact fields (the
first save's phone survives the second save's empty phone; the second
save's non-empty email wins). -/
theorem C5_customer_dedup_witness :
    jsTrim "Dana " = jsTrim " Dana "
    ∧ (App.ensureCustomerByName "c2" 2
          (App.ensureCustomerByName "c1" 1 [] " Dana " "050" "" "n1").2
          "Dana " "" "d@x" "n2").2
      = [⟨"c1", "Dana", "050", "d@x", "n2", 1⟩] := by
  have h := C5_customer_dedup [] "c1" "c2" 1 2 " Dana " "050" "" "n1"
    "Dana " "" "d@x" "n2" (by simp) (by simp) (by decide)
  refine ⟨by decide, ?_⟩
  rw [h.1, h.2.2]
  decide

/-! ## C6 — export preconditions -/

/-- C6: `exportQuotePdf` aborts behind a user-facing message — touching no
state and producing no document — whenever the payload's customer name
trims to empty or its item list is empty; with the dependency available
and both checks passed, it proceeds to generate the document. -/
theorem C6_export_validation (avail : Bool) (p : Pdf.PdfQuotePayload) :
    ((jsTrim p.customerName = "" ∨ p.items = []) →
      ∃ msg, Pdf.exportQuotePdf avail p = .aborted msg)
    ∧ (avail = true → jsTrim p.customerName ≠ "" → p.items ≠ [] →
        Pdf.exportQuotePdf avail p = .generated) := by
  constructor
  · intro h
    unfold Pdf.exportQuotePdf
    cases avail with
    | false => exact ⟨_, rfl⟩
    | true =>
      rcases h with h | h
      · rw [if_neg (by simp), if_pos h]
        exact ⟨_, rfl⟩
      · by_cases hname : jsTrim p.customerName = ""
        · rw [if_neg (by simp), if_pos hname]
          exact ⟨_, rfl⟩
        · rw [if_neg (by simp), if_neg hname, if_pos (by simp [h])]
          exact ⟨_, rfl⟩
  · intro ha hname hitems
    subst ha
    unfold Pdf.exportQuotePdf
    rw [if_neg (by simp), if_neg hname, if_neg (by simp [hitems])]

/-- C6 witness: a payload whose customer name trims to empty aborts with a
message; a well-formed payload proceeds to generation. -/
theorem C6_export_validation_witness :
    (jsTrim payloadBlankName.customerName = ""
      ∧ ∃ msg, Pdf.exportQuotePdf true payloadBlankName = .aborted msg)
    ∧ Pdf.exportQuotePdf true payloadOk = .generated :=
  ⟨⟨by decide, (C6_export_validation true payloadBlankName).1 (Or.inl (by decide))⟩,
    (C6_export_validation true payloadOk).2 rfl (by decide) (by decide)⟩

/-! ## C8 — bidirectional text resolution -/

/-- C8: `drawTextSmart` uses an explicit `forceRtl` override when given,
otherwise marks the run right-to-left exactly when some character lies in
the Hebrew block U+0590–U+05FF; an explicit `align` option always wins,
otherwise alignment defaults to right for RTL runs and left for LTR
runs. -/
theorem C8_drawTextSmart (text : String) (opts : Pdf.DrawOpts) :
    (∀ b, opts.forceRtl = some b → (Pdf.drawTextSmart text opts).1 = b)
    ∧ (opts.forceRtl = none →
        ((Pdf.drawTextSmart text opts).1 = true ↔
          ∃ c ∈ text.toList, 0x590 ≤ c.toNat ∧ c.toNat ≤ 0x5FF))
    ∧ (∀ a, opts.align = some a → (Pdf.drawTextSmart text opts).2 = a)
    ∧ (opts.align = none →
        (Pdf.drawTextSmart text opts).2
          = (if (Pdf.drawTextSmart text opts).1 then Pdf.Align.right
             else Pdf.Align.left)) := by
  refine ⟨?_, ?_, ?_, ?_⟩
  · intro b hb
    simp [Pdf.drawTextSmart, hb]
  · intro hb
    simp [Pdf.drawTextSmart, hb, Pdf.isRTLText, List.any_eq_true]
  · intro a ha
    simp [Pdf.drawTextSmart, ha]
  · intro ha
    simp [Pdf.drawTextSmart, ha]

/-- C8 witness: a Hebrew string defaults to RTL, a Latin string defaults to
left alignment, and an explicit `forceRtl := false` override beats the
Hebrew content. -/
theorem C8_drawTextSmart_witness :
    (Pdf.drawTextSmart "שלום" ⟨none, none⟩).1 = true
    ∧ (Pdf.drawTextSmart "abc" ⟨none, none⟩).2 = Pdf.Align.left
    ∧ (Pdf.drawTextSmart "שלום" ⟨some Pdf.Align.center, some false⟩).1 = false := by
  refine ⟨?_, ?_, ?_⟩
  · exact ((C8_drawTextSmart "שלום" ⟨none, none⟩).2.1 rfl).mpr
      ⟨'ש', by decide, by decide, by decide⟩
  · have h4 := (C8_drawTextSmart "abc" ⟨none, none⟩).2.2.2 rfl
    have h2 := (C8_drawTextSmart "abc" ⟨none, none⟩).2.1 rfl
    have h1 : (Pdf.drawTextSmart "abc" ⟨none, none⟩).1 = false := by
      rw [Bool.eq_false_iff]
      intro htr
      rcases h2.mp htr with ⟨c, hc, hge, _⟩
      have hl : "abc".toList = ['a', 'b', 'c'] := rfl
      rw [hl] at hc
      fin_cases hc <;> exact absurd hge (by decide)
    rw [h4, h1]
    rfl
  · exact (C8_drawTextSmart "שלום" ⟨some Pdf.Align.center, some false⟩).1 false rfl

/-! ## C9 — hydration fallback and backup -/

theorem coerceState_profiles_ne (numStr : ℚ → String) (v : App.JsValue) :
    (App.coerceState numStr v).profiles ≠ [] := by
  have hp : (App.coerceState numStr v).profiles
      = match App.getField v "profiles" with
        | some (.arrV xs) => if xs.isEmpty then App.defaultProfilesJs else xs
        | _ => App.defaultProfilesJs := rfl
  rw [hp]
  cases hv : App.getField v "profiles" with
  | none => simp [App.defaultProfilesJs]
  | some f =>
    cases f with
    | arrV xs =>
      by_cases he : xs.isEmpty
      · simp [he, App.defaultProfilesJs]
      · have he2 : xs ≠ [] := fun hxs => he (by rw [hxs]; rfl)
        simp [he, he2]
    | nullV => simp [App.defaultProfilesJs]
    | boolV b => simp [App.defaultProfilesJs]
    | numV q => simp [App.defaultProfilesJs]
    | strV s => simp [App.defaultProfilesJs]
    | objV fs => simp [App.defaultProfilesJs]

/-- C9 (amended): `hydrateState` never throws and always yields a usable
state — but the backup guarantee holds only for non-empty blobs.  An
absent key or an empty-string blob (both falsy under the source's
`if (!raw)`) yields the default state with no backup write; every
non-empty blob whose parse fails is preserved verbatim under the backup
key (`LS_KEY ++ ":backup"`) with the default state returned; a parsed
blob is coerced field-by-field into the `AppState` shape with no backup
write; and on every path the returned profiles list is non-empty. -/
theorem C9_hydrateState (numStr : ℚ → String)
    (parseJson : String → Option App.JsValue) (raw : Option String) :
    (∀ s, raw = some s → s ≠ "" → parseJson s = none →
      App.hydrateState numStr parseJson raw
        = ⟨App.DEFAULT_STATE, some (App.LS_KEY ++ ":backup", s)⟩)
    ∧ (∀ s v, raw = some s → s ≠ "" → parseJson s = some v →
        App.hydrateState numStr parseJson raw = ⟨App.coerceState numStr v, none⟩)
    ∧ (raw = none →
        App.hydrateState numStr parseJson raw = ⟨App.DEFAULT_STATE, none⟩)
    ∧ (raw = some "" →
        App.hydrateState numStr parseJson raw = ⟨App.DEFAULT_STATE, none⟩)
    ∧ (App.hydrateState numStr parseJson raw).state.profiles ≠ [] := by
  refine ⟨?_, ?_, ?_, ?_, ?_⟩
  · intro s hs hne hp
    subst hs
    simp only [App.hydrateState, hp]
    rw [if_neg hne]
  · intro s v hs hne hp
    subst hs
    simp only [App.hydrateState, hp]
    rw [if_neg hne]
  · intro h
    subst h
    rfl
  · intro h
    subst h
    rfl
  · cases raw with
    | none => simp [App.hydrateState, App.DEFAULT_STATE, App.defaultProfilesJs]
    | some s =>
      by_cases hse : s = ""
      · subst hse
        simp [App.hydrateState, App.DEFAULT_STATE, App.defaultProfilesJs]
      · cases hp : parseJson s with
        | none =>
          simp [App.hydrateState, hse, hp, App.DEFAULT_STATE, App.defaultProfilesJs]
        | some v =>
          simp only [App.hydrateState, hp]
          rw [if_neg hse]
          exact coerceState_profiles_ne numStr v

/-- C9 counterexample: the empty-string blob fails to parse as JSON
(`JSON.parse("")` throws), yet `hydrateState` falls into the `!raw` guard:
it returns the default state with no backup write, so the corrupt blob is
not preserved under the backup key. -/
theorem C9_hydrateState_counterexample :
    (fun _ : String => (none : Option App.JsValue)) "" = none
    ∧ App.hydrateState (fun _ => "") (fun _ => none) (some "")
        = ⟨App.DEFAULT_STATE, none⟩
    ∧ (App.hydrateState (fun _ => "") (fun _ => none) (some "")).backupWrite
        ≠ some (App.LS_KEY ++ ":backup", "") :=
  ⟨rfl, rfl, by simp [App.hydrateState]⟩

/-- C9 witness: a non-empty unparseable stored blob is backed up under
`LS_KEY ++ ":backup"` and replaced by the default state. -/
theorem C9_hydrateState_witness :
    ("CORRUPT" : String) ≠ ""
    ∧ App.hydrateState (fun _ => "") (fun _ => none) (some "CORRUPT")
        = ⟨App.DEFAULT_STATE, some (App.LS_KEY ++ ":backup", "CORRUPT")⟩ :=
  ⟨by decide,
    (C9_hydrateState (fun _ => "") (fun _ => none) (some "CORRUPT")).1
      "CORRUPT" rfl (by decide) rfl⟩

/-! ## C10 — one stored quote per customer -/

/-- C10: `saveQuote` first removes every stored quote of the resolved
customer and appends the new one; afterwards the customer has exactly one
stored quote, other customers' quotes are untouched, and the at-most-one-
quote-per-customer invariant is preserved. -/
theorem C10_saveQuote_one_per_customer (quotes : List App.Quote) (q : App.Quote) :
    App.saveQuoteUpdate quotes q
      = quotes.filter (fun old => old.customerId ≠ q.customerId) ++ [q]
    ∧ App.quotesFor (App.saveQuoteUpdate quotes q) q.customerId = 1
    ∧ (∀ cid, cid ≠ q.customerId →
        (App.saveQuoteUpdate quotes q).filter (fun x => x.customerId = cid)
          = quotes.filter (fun x => x.customerId = cid))
    ∧ ((∀ cid, App.quotesFor quotes cid ≤ 1) →
        ∀ cid, App.quotesFor (App.saveQuoteUpdate quotes q) cid ≤ 1) := by
  have hsame : App.quotesFor (App.saveQuoteUpdate quotes q) q.customerId = 1 := by
    unfold App.quotesFor App.saveQuoteUpdate
    rw [List.filter_append, List.filter_filter]
    have hnil : quotes.filter
        (fun a => decide (a.customerId = q.customerId)
          && decide (a.customerId ≠ q.customerId)) = [] := by
      rw [List.filter_eq_nil_iff]
      intro a _
      by_cases h : a.customerId = q.customerId <;> simp [h]
    rw [hnil]
    simp
  have hother : ∀ cid, cid ≠ q.customerId →
      (App.saveQuoteUpdate quotes q).filter (fun x => x.customerId = cid)
        = quotes.filter (fun x => x.customerId = cid) := by
    intro cid hcid
    unfold App.saveQuoteUpdate
    rw [List.filter_append, List.filter_filter]
    have hq : [q].filter (fun x => x.customerId = cid) = [] := by
      rw [List.filter_eq_nil_iff]
      intro a ha
      rw [List.mem_singleton] at ha
      subst ha
      simp
      exact fun h => hcid h.symm
    rw [hq, List.append_nil]
    congr 1
    funext a
    by_cases h : a.customerId = cid
    · have h2 : a.customerId ≠ q.customerId := by rw [h]; exact hcid
      simp [h, h2, hcid]
    · simp [h]
  refine ⟨rfl, hsame, hother, ?_⟩
  · intro hinv cid
    by_cases h : cid = q.customerId
    · rw [h, hsame]
    · unfold App.quotesFor
      rw [hother cid h]
      exact hinv cid

/-- C10 witness: replacing `sampleQuote` by `sampleQuoteB` (same customer)
leaves other customers' quote lists untouched and keeps the
at-most-one-quote-per-customer bound. -/
theorem C10_saveQuote_witness :
    ("other" ≠ sampleQuoteB.customerId
      ∧ (App.saveQuoteUpdate [sampleQuote] sampleQuoteB).filter
          (fun x => x.customerId = "other")
        = [sampleQuote].filter (fun x => x.customerId = "other"))
    ∧ App.quotesFor (App.saveQuoteUpdate [sampleQuote] sampleQuoteB) "cust1" ≤ 1 := by
  have hinv : ∀ cid, App.quotesFor [sampleQuote] cid ≤ 1 := by
    intro cid
    unfold App.quotesFor
    exact le_trans (List.length_filter_le _ _) (by simp)
  have hne : "other" ≠ sampleQuoteB.customerId := by decide
  exact ⟨⟨hne,
      (C10_saveQuote_one_per_customer [sampleQuote] sampleQuoteB).2.2.1 "other" hne⟩,
    (C10_saveQuote_one_per_customer [sampleQuote] sampleQuoteB).2.2.2 hinv "cust1"⟩

/-! ## C7 — table pagination -/
theorem drawHeaderEvents_of_fit {g : Pdf.Geom} {y : ℚ}
    (h : ¬ y + Pdf.headerHeight > g.pageHeight - g.marginBottom) :
    Pdf.drawHeaderEvents g y = ([Pdf.Ev.header y], y + Pdf.headerHeight) := by
  unfold Pdf.drawHeaderEvents
  rw [if_neg h]

theorem drawHeaderEvents_of_overflow {g : Pdf.Geom} {y : ℚ}
    (h : y + Pdf.headerHeight > g.pageHeight - g.marginBottom) :
    Pdf.drawHeaderEvents g y
      = ([Pdf.Ev.pageBreak, Pdf.Ev.header g.marginTop],
          g.marginTop + Pdf.headerHeight) := by
  unfold Pdf.drawHeaderEvents
  rw [if_pos h]

theorem drawHeader_atTop {g : Pdf.Geom}
    (hsane : g.marginTop + Pdf.headerHeight ≤ g.pageHeight - g.marginBottom) :
    Pdf.drawHeaderEvents g g.marginTop
      = ([Pdf.Ev.header g.marginTop], g.marginTop + Pdf.headerHeight) :=
  drawHeaderEvents_of_fit (not_lt.mpr hsane)

theorem drawHeaderEvents_no_rows (g : Pdf.Geom) (y : ℚ) (i : ℕ) (yr h : ℚ) :
    Pdf.Ev.row i yr h ∉ (Pdf.drawHeaderEvents g y).1 := by
  unfold Pdf.drawHeaderEvents
  by_cases hc : y + Pdf.headerHeight > g.pageHeight - g.marginBottom
  · rw [if_pos hc]; simp
  · rw [if_neg hc]; simp

theorem rowIdxs_drawHeaderEvents (g : Pdf.Geom) (y : ℚ) :
    Pdf.rowIdxs (Pdf.drawHeaderEvents g y).1 = [] := by
  unfold Pdf.drawHeaderEvents
  by_cases hc : y + Pdf.headerHeight > g.pageHeight - g.marginBottom
  · rw [if_pos hc]; rfl
  · rw [if_neg hc]; rfl

/-- Every row placed by the loop is a row of the input (index-linked to its
height) and lies entirely above the bottom margin. -/
theorem layoutRows_rows {g : Pdf.Geom}
    (hsane : g.marginTop + Pdf.headerHeight ≤ g.pageHeight - g.marginBottom) :
    ∀ (hts : List ℚ) (y : ℚ) (i0 : ℕ),
      (∀ h ∈ hts,
        g.marginTop + Pdf.headerHeight + h ≤ g.pageHeight - g.marginBottom) →
      ∀ i yr h, Pdf.Ev.row i yr h ∈ (Pdf.layoutRows g hts y i0).1 →
        (∃ j, i = i0 + j ∧ hts.get? j = some h)
        ∧ yr + h ≤ g.pageHeight - g.marginBottom := by
  intro hts
  induction hts with
  | nil =>
    intro y i0 _ i yr h hmem
    simp [Pdf.layoutRows] at hmem
  | cons hd tl ih =>
    intro y i0 hfit i yr h hmem
    have hfit0 : g.marginTop + Pdf.headerHeight + hd ≤ g.pageHeight - g.marginBottom :=
      hfit hd (List.mem_cons_self hd tl)
    have hfitTl : ∀ x ∈ tl,
        g.marginTop + Pdf.headerHeight + x ≤ g.pageHeight - g.marginBottom :=
      fun x hx => hfit x (List.mem_cons_of_mem hd hx)
    rw [Pdf.layoutRows] at hmem
    by_cases hc : y + hd > g.pageHeight - g.marginBottom
    · rw [if_pos hc, drawHeader_atTop hsane] at hmem
      dsimp only at hmem
      rw [List.mem_append] at hmem
      rcases hmem with hmem | hmem
      · rw [List.mem_cons, List.mem_singleton] at hmem
        rcases hmem with hmem | hmem
        · exact absurd hmem (by simp)
        · exact absurd hmem (by simp)
      · rw [List.mem_cons] at hmem
        rcases hmem with hmem | hmem
        · rw [Pdf.Ev.row.injEq] at hmem
          obtain ⟨hi, hyr, hh⟩ := hmem
          subst hi
          subst hyr
          subst hh
          exact ⟨⟨0, by omega, rfl⟩, by linarith⟩
        · rcases ih _ _ hfitTl i yr h hmem with ⟨⟨j, hij, hget⟩, hb⟩
          exact ⟨⟨j + 1, by omega, hget⟩, hb⟩
    · rw [if_neg hc] at hmem
      dsimp only at hmem
      rw [List.mem_cons] at hmem
      rcases hmem with hmem | hmem
      · rw [Pdf.Ev.row.injEq] at hmem
        obtain ⟨hi, hyr, hh⟩ := hmem
        subst hi
        subst hyr
        subst hh
        exact ⟨⟨0, by omega, rfl⟩, not_lt.mp hc⟩
      · rcases ih _ _ hfitTl i yr h hmem with ⟨⟨j, hij, hget⟩, hb⟩
        exact ⟨⟨j + 1, by omega, hget⟩, hb⟩

/-- Every page break emitted by the loop is immediately followed by a
header at the top margin and the pending row directly below it. -/
theorem layoutRows_breaksFollowed {g : Pdf.Geom}
    (hsane : g.marginTop + Pdf.headerHeight ≤ g.pageHeight - g.marginBottom) :
    ∀ (hts : List ℚ) (y : ℚ) (i0 : ℕ),
      Pdf.breaksFollowed g (Pdf.layoutRows g hts y i0).1 = true := by
  intro hts
  induction hts with
  | nil => intro y i0; rfl
  | cons hd tl ih =>
    intro y i0
    rw [Pdf.layoutRows]
    by_cases hc : y + hd > g.pageHeight - g.marginBottom
    · rw [if_pos hc, drawHeader_atTop hsane]
      dsimp only
      simp only [List.cons_append, List.singleton_append]
      simp [Pdf.breaksFollowed, ih]
    · rw [if_neg hc]
      dsimp only
      simp [Pdf.breaksFollowed, ih]

/-- Every header drawn inside the loop has the pending row below it on the
same page. -/
theorem layoutRows_headersHaveRow {g : Pdf.Geom}
    (hsane : g.marginTop + Pdf.headerHeight ≤ g.pageHeight - g.marginBottom) :
    ∀ (hts : List ℚ) (y : ℚ) (i0 : ℕ),
      Pdf.headersHaveRow (Pdf.layoutRows g hts y i0).1 = true := by
  intro hts
  induction hts with
  | nil => intro y i0; rfl
  | cons hd tl ih =>
    intro y i0
    rw [Pdf.layoutRows]
    by_cases hc : y + hd > g.pageHeight - g.marginBottom
    · rw [if_pos hc, drawHeader_atTop hsane]
      dsimp only
      simp only [List.cons_append, List.singleton_append]
      simp [Pdf.headersHaveRow, Pdf.rowBeforeBreak, ih]
    · rw [if_neg hc]
      dsimp only
      simp [Pdf.headersHaveRow, ih]

/-- The loop draws exactly one row per input row, in input order. -/
theorem layoutRows_rowIdxs (g : Pdf.Geom) :
    ∀ (hts : List ℚ) (y : ℚ) (i0 : ℕ),
      Pdf.rowIdxs (Pdf.layoutRows g hts y i0).1 = List.range' i0 hts.length := by
  intro hts
  induction hts with
  | nil => intro y i0; rfl
  | cons hd tl ih =>
    intro y i0
    rw [Pdf.layoutRows]
    by_cases hc : y + hd > g.pageHeight - g.marginBottom
    · rw [if_pos hc]
      dsimp only
      unfold Pdf.rowIdxs
      have h1 := rowIdxs_drawHeaderEvents g g.marginTop
      unfold Pdf.rowIdxs at h1
      have h2 := ih ((Pdf.drawHeaderEvents g g.marginTop).2 + hd) (i0 + 1)
      unfold Pdf.rowIdxs at h2
      simp only [List.filterMap_append, List.filterMap_cons, h1, h2]
      simp [List.range'_succ]
    · rw [if_neg hc]
      dsimp only
      unfold Pdf.rowIdxs
      have h2 := ih (y + hd) (i0 + 1)
      unfold Pdf.rowIdxs at h2
      simp only [List.filterMap_cons, h2]
      simp [List.range'_succ]

theorem rowHeightOf_pos (split : String → ℚ → List String) (numFmt : ℚ → String)
    (it : Pdf.PdfLineItem) : 0 < Pdf.rowHeightOf split numFmt it := by
  unfold Pdf.rowHeightOf
  have h1 : (1 : ℚ) ≤ (Pdf.rowLines split numFmt it : ℚ) := by
    have h2 : 1 ≤ Pdf.rowLines split numFmt it := le_max_left _ _
    exact_mod_cast h2
  unfold Pdf.rowLineHeight
  nlinarith

/-- C7 (amended): in the items-table layout loop, every drawn row has
height `max(1, max per-cell wrapped line count) * line_height + padding`
for its item, no drawn row crosses the bottom margin (rows are never split
across pages), each item produces exactly one row in input order, and every
page break is immediately followed by a redrawn header at the top margin
with the pending row placed directly below it.  Provided the initial header
position leaves room for the first row beneath it (always the case for the
export entry point, whose table starts near the top of the page), every
header ends up with at least one data row on its own page; without that
proviso the initially drawn header can be stranded alone at the bottom of
the first page — see the counterexample. -/
theorem C7_table_pagination (split : String → ℚ → List String) (numFmt : ℚ → String)
    (g : Pdf.Geom) (items : List Pdf.PdfLineItem) (startY : ℚ)
    (hsane : g.marginTop + Pdf.headerHeight ≤ g.pageHeight - g.marginBottom)
    (hfit : ∀ it ∈ items,
      g.marginTop + Pdf.headerHeight + Pdf.rowHeightOf split numFmt it
        ≤ g.pageHeight - g.marginBottom) :
    (∀ i yr h,
      Pdf.Ev.row i yr h ∈ (Pdf.drawItemsTable split numFmt g items startY).1 →
        (∃ it, items.get? i = some it
          ∧ h = (Pdf.rowLines split numFmt it : ℚ) * Pdf.rowLineHeight + 6)
        ∧ yr + h ≤ g.pageHeight - g.marginBottom)
    ∧ Pdf.breaksFollowed g (Pdf.drawItemsTable split numFmt g items startY).1 = true
    ∧ Pdf.rowIdxs (Pdf.drawItemsTable split numFmt g items startY).1
        = List.range items.length
    ∧ (∀ it0 rest, items = it0 :: rest →
        startY + Pdf.headerHeight + Pdf.rowHeightOf split numFmt it0
            ≤ g.pageHeight - g.marginBottom →
        Pdf.headersHaveRow (Pdf.drawItemsTable split numFmt g items startY).1
          = true) := by
  by_cases hempty : items.isEmpty
  · obtain rfl : items = [] := List.isEmpty_iff.mp hempty
    refine ⟨?_, rfl, rfl, ?_⟩
    · intro i yr h hmem
      simp [Pdf.drawItemsTable] at hmem
    · intro it0 rest hitems _
      exact absurd hitems (by simp)
  · obtain ⟨it0, rest, rfl⟩ : ∃ it0 rest, items = it0 :: rest := by
      cases items with
      | nil => simp at hempty
      | cons a l => exact ⟨a, l, rfl⟩
    have hfit0 : g.marginTop + Pdf.headerHeight + Pdf.rowHeightOf split numFmt it0
        ≤ g.pageHeight - g.marginBottom := hfit it0 (List.mem_cons_self it0 rest)
    have hfitH : ∀ x ∈ (it0 :: rest).map (Pdf.rowHeightOf split numFmt),
        g.marginTop + Pdf.headerHeight + x ≤ g.pageHeight - g.marginBottom := by
      intro x hx
      rcases List.mem_map.mp hx with ⟨it, hit, rfl⟩
      exact hfit it hit
    have htable : Pdf.drawItemsTable split numFmt g (it0 :: rest) startY
        = ((Pdf.drawHeaderEvents g startY).1
            ++ (Pdf.layoutRows g ((it0 :: rest).map (Pdf.rowHeightOf split numFmt))
                (Pdf.drawHeaderEvents g startY).2 0).1,
          (Pdf.layoutRows g ((it0 :: rest).map (Pdf.rowHeightOf split numFmt))
              (Pdf.drawHeaderEvents g startY).2 0).2) := by
      unfold Pdf.drawItemsTable
      rw [if_neg (by simp)]
    refine ⟨?_, ?_, ?_, ?_⟩
    · intro i yr h hmem
      rw [htable] at hmem
      dsimp only at hmem
      rcases List.mem_append.mp hmem with hmem | hmem
      · exact absurd hmem (drawHeaderEvents_no_rows g startY i yr h)
      · rcases layoutRows_rows hsane _ _ 0 hfitH i yr h hmem with ⟨⟨j, hij, hget⟩, hb⟩
        obtain rfl : i = j := by omega
        rw [List.get?_map] at hget
        rcases Option.map_eq_some'.mp hget with ⟨it, hit, hh⟩
        exact ⟨⟨it, hit, by rw [← hh]; rfl⟩, hb⟩
    · rw [htable]
      dsimp only
      by_cases hc : startY + Pdf.headerHeight > g.pageHeight - g.marginBottom
      · rw [drawHeaderEvents_of_overflow hc]
        dsimp only
        rw [List.map_cons, Pdf.layoutRows, if_neg (not_lt.mpr hfit0)]
        dsimp only
        simp only [List.cons_append, List.singleton_append, List.nil_append]
        simp [Pdf.breaksFollowed, layoutRows_breaksFollowed hsane]
      · rw [drawHeaderEvents_of_fit hc]
        dsimp only
        simp only [List.singleton_append]
        simp [Pdf.breaksFollowed, layoutRows_breaksFollowed hsane]
    · rw [htable]
      dsimp only
      unfold Pdf.rowIdxs
      rw [List.filterMap_append]
      have h1 := rowIdxs_drawHeaderEvents g startY
      unfold Pdf.rowIdxs at h1
      rw [h1, List.nil_append]
      have h2 := layoutRows_rowIdxs g ((it0 :: rest).map (Pdf.rowHeightOf split numFmt))
        (Pdf.drawHeaderEvents g startY).2 0
      unfold Pdf.rowIdxs at h2
      rw [h2, List.length_map, List.range_eq_range']
    · intro it0A restA hitemsA hfirst
      injection hitemsA with h1 h2
      subst h1
      subst h2
      have hpos := rowHeightOf_pos split numFmt it0
      have hnb : ¬ startY + Pdf.headerHeight > g.pageHeight - g.marginBottom := by
        intro hgt
        linarith
      rw [htable]
      dsimp only
      rw [drawHeaderEvents_of_fit hnb]
      dsimp only
      rw [List.map_cons, Pdf.layoutRows, if_neg (not_lt.mpr hfirst)]
      dsimp only
      simp only [List.singleton_append]
      simp [Pdf.headersHaveRow, Pdf.rowBeforeBreak,
        layoutRows_headersHaveRow hsane]

/-- A string with `×` in the middle is never empty. -/
theorem mid_cross_ne_empty (a b : String) : a ++ "×" ++ b ≠ "" := by
  intro h
  have hlen := congrArg String.length h
  rw [String.length_append, String.length_append] at hlen
  have hx : String.length "×" = 1 := rfl
  have h0 : String.length "" = 0 := rfl
  rw [hx, h0] at hlen
  omega

theorem blankCellLineLists :
    Pdf.cellLineLists splitOneLine fmtStub blankPdfItem
      = [[], [], [], ["line"]] := by
  have hdims : Pdf.dimsRaw blankPdfItem ≠ "" := mid_cross_ne_empty _ _
  have ha : Pdf.addonsText fmtStub ([] : List Pdf.PdfAddon) = "" := rfl
  have hj : Pdf.joinNonEmpty " — " ["", ""] = "" := rfl
  unfold Pdf.cellLineLists
  rw [if_pos hdims]
  norm_num [blankPdfItem, ha, hj, splitOneLine]

theorem blankRowHeight :
    Pdf.rowHeightOf splitOneLine fmtStub blankPdfItem = 20 := by
  have hlines : Pdf.rowLines splitOneLine fmtStub blankPdfItem = 1 := by
    unfold Pdf.rowLines
    rw [blankCellLineLists]
    decide
  unfold Pdf.rowHeightOf
  rw [hlines]
  norm_num [Pdf.rowLineHeight]

/-- C7 witness: for a sane geometry where both blank rows fit under a
fresh-page header, the amended pagination theorem applies: each item is
drawn exactly once in order and every page break is followed by a header
and its row. -/
theorem C7_table_pagination_witness :
    Pdf.rowIdxs (Pdf.drawItemsTable splitOneLine fmtStub gSep
        [blankPdfItem, blankPdfItem] 40).1 = List.range 2
    ∧ Pdf.breaksFollowed gSep (Pdf.drawItemsTable splitOneLine fmtStub gSep
        [blankPdfItem, blankPdfItem] 40).1 = true := by
  have hsane : gSep.marginTop + Pdf.headerHeight
      ≤ gSep.pageHeight - gSep.marginBottom := by
    norm_num [gSep, Pdf.headerHeight]
  have hfit : ∀ it ∈ [blankPdfItem, blankPdfItem],
      gSep.marginTop + Pdf.headerHeight + Pdf.rowHeightOf splitOneLine fmtStub it
        ≤ gSep.pageHeight - gSep.marginBottom := by
    intro it hit
    rcases List.mem_cons.mp hit with rfl | hit2
    · rw [blankRowHeight]
      norm_num [gSep, Pdf.headerHeight]
    · rcases List.mem_singleton.mp hit2 with rfl
      rw [blankRowHeight]
      norm_num [gSep, Pdf.headerHeight]
  have h := C7_table_pagination splitOneLine fmtStub gSep
    [blankPdfItem, blankPdfItem] 40 hsane hfit
  exact ⟨by simpa using h.2.2.1, h.2.1⟩

/-- C7 counterexample: with the table starting at `y = 130` in the
`gSep` geometry, the initial header is drawn at the bottom of page one and
the first row triggers a page break, so that header is left with no data
row on its page — refuting the claim that the header is never separated
from at least one data row. -/
theorem C7_table_pagination_counterexample :
    Pdf.headersHaveRow
      (Pdf.drawItemsTable splitOneLine fmtStub gSep [blankPdfItem] 130).1
        = false := by
  have hrow : Pdf.rowHeightOf splitOneLine fmtStub blankPdfItem = 20 :=
    blankRowHeight
  have hh1 : Pdf.drawHeaderEvents gSep 130 = ([Pdf.Ev.header 130], 154) := by
    rw [drawHeaderEvents_of_fit (by norm_num [gSep, Pdf.headerHeight])]
    norm_num [gSep, Pdf.headerHeight]
  have hh2 : Pdf.drawHeaderEvents gSep gSep.marginTop
      = ([Pdf.Ev.header gSep.marginTop], gSep.marginTop + Pdf.headerHeight) :=
    drawHeader_atTop (by norm_num [gSep, Pdf.headerHeight])
  unfold Pdf.drawItemsTable
  rw [if_neg (by simp)]
  dsimp only
  rw [List.map_cons, List.map_nil, hrow, hh1]
  dsimp only
  rw [Pdf.layoutRows, if_pos (by norm_num [gSep]), hh2]
  dsimp only
  rw [Pdf.layoutRows]
  simp [Pdf.headersHaveRow, Pdf.rowBeforeBreak]
end AluminumApp
